import Mathlib

/-!
Verification development for the `goohttp` HTTP server core
(`src/src/http_server.rs`).

The development shallowly embeds the functions of the source that the
spec talks about:

* `response_to_bytes` (src/src/http_server.rs:236-274) — serializing a
  structured response to HTTP/1.1 wire bytes;
* `handler` (src/src/http_server.rs:213-330) — the per-connection
  handler: line collection, request-line parsing, dispatch, write;
* the accept loop body of `serve` (src/src/http_server.rs:186-206);
* `shutdown` (src/src/http_server.rs:153-159).

Behaviour of dependency functions that the source calls
(`http::Method::from_bytes`, `http::Uri::from_str`,
`http::HeaderMap::into_iter`, `http::StatusCode::canonical_reason`,
`Debug` of `http::Version`) is modelled from the `http` crate (v0.2),
which the source links against; each such definition carries a doc
comment naming the modelled dependency item.

Bytes are modelled as natural numbers; request-side text is modelled at
the `List Char` level so that the tokenization done by
`str::split(' ')` can be reasoned about directly.  Panics (the `expect`
calls of the source) are modelled by `Option.none` results or by a
dedicated `panicked` outcome.
-/

set_option maxHeartbeats 1000000

/-- Bytes of an ASCII string, as natural numbers (`str::as_bytes`). -/
def strBytes (s : String) : List Nat := s.data.map Char.toNat

/-- CRLF line-terminator bytes appended by `response_to_bytes`. -/
def crlf : List Nat := strBytes ("\r\n")

/-- Concatenation of the images of `f`, in order (used to lay out the
serialized header section). -/
def listConcatMap {α β : Type} (f : α → List β) : List α → List β
  | [] => []
  | a :: l => f a ++ listConcatMap f l

/-- Number of positions of `l` at which the byte pattern `pat` occurs. -/
def countInfix (pat l : List Nat) : Nat :=
  ((List.range (l.length + 1)).filter (fun i => pat.isPrefixOf (l.drop i))).length

/-- HTTP protocol version, as in `http::Version` (dependency of the
source); the server only ever builds responses with the builder default
`HTTP/1.1`, but `response_to_bytes` is generic in the version. -/
inductive Version
  | http09
  | http10
  | http11
  | h2
  | h3
  deriving DecidableEq

/-- Display of the version produced by `format!("{:?}", parts.version)`
in the status line of `response_to_bytes` (src/src/http_server.rs:243),
i.e. the `Debug` rendering of `http::Version`. -/
def Version.display : Version → String
  | .http09 => "HTTP/0.9"
  | .http10 => "HTTP/1.0"
  | .http11 => "HTTP/1.1"
  | .h2 => "HTTP/2.0"
  | .h3 => "HTTP/3.0"

/-- Structured response consumed by `response_to_bytes`
(`http::Response<Vec<u8>>` in the source): version, status code,
headers as the ordered insertion sequence of (name, value) pairs, and
raw body bytes.  Header names are stored as they sit in the map
(`http::HeaderName` display is verbatim the stored name). -/
structure ResponseModel where
  version : Version
  status : Nat
  headers : List (String × String)
  body : List Nat
  deriving DecidableEq

/-- Canonical reason phrases, modelled from
`http::StatusCode::canonical_reason` of the `http` crate (v0.2), which
`response_to_bytes` consults at src/src/http_server.rs:246-249. -/
def reasonTable : List (Nat × String) :=
  [(100, "Continue"), (101, "Switching Protocols"), (102, "Processing"),
   (200, "OK"), (201, "Created"), (202, "Accepted"),
   (203, "Non-Authoritative Information"), (204, "No Content"),
   (205, "Reset Content"), (206, "Partial Content"), (207, "Multi-Status"),
   (208, "Already Reported"), (226, "IM Used"),
   (300, "Multiple Choices"), (301, "Moved Permanently"), (302, "Found"),
   (303, "See Other"), (304, "Not Modified"), (305, "Use Proxy"),
   (307, "Temporary Redirect"), (308, "Permanent Redirect"),
   (400, "Bad Request"), (401, "Unauthorized"), (402, "Payment Required"),
   (403, "Forbidden"), (404, "Not Found"), (405, "Method Not Allowed"),
   (406, "Not Acceptable"), (407, "Proxy Authentication Required"),
   (408, "Request Timeout"), (409, "Conflict"), (410, "Gone"),
   (411, "Length Required"), (412, "Precondition Failed"),
   (413, "Payload Too Large"), (414, "URI Too Long"),
   (415, "Unsupported Media Type"), (416, "Range Not Satisfiable"),
   (417, "Expectation Failed"), (418, "I\x27m a teapot"),
   (421, "Misdirected Request"), (422, "Unprocessable Entity"),
   (423, "Locked"), (424, "Failed Dependency"), (426, "Upgrade Required"),
   (428, "Precondition Required"), (429, "Too Many Requests"),
   (431, "Request Header Fields Too Large"),
   (451, "Unavailable For Legal Reasons"),
   (500, "Internal Server Error"), (501, "Not Implemented"),
   (502, "Bad Gateway"), (503, "Service Unavailable"),
   (504, "Gateway Timeout"), (505, "HTTP Version Not Supported"),
   (506, "Variant Also Negotiates"), (507, "Insufficient Storage"),
   (508, "Loop Detected"), (510, "Not Extended"),
   (511, "Network Authentication Required")]

/-- Lookup of the canonical reason phrase for a status code
(model of `http::StatusCode::canonical_reason`). -/
def canonicalReason (code : Nat) : Option String :=
  (reasonTable.find? (fun p => p.1 == code)).map Prod.snd

/-- Values held under header name `n`, in insertion order (the value
list of the `http::HeaderMap` bucket for `n`). -/
def valuesOf (n : String) (hs : List (String × String)) : List String :=
  (hs.filter (fun p => p.1 == n)).map Prod.snd

/-- Distinct header names in order of first insertion (the bucket order
of `http::HeaderMap`). -/
def firstKeys : List (String × String) → List String
  | [] => []
  | p :: rest => p.1 :: (firstKeys rest).filter (fun n => n != p.1)

/-- Entries yielded for the bucket of header name `n`: the first value
together with `some n`, every further value of the same name with
`none`. -/
def bucketFor (hs : List (String × String)) (n : String) : List (Option String × String) :=
  match valuesOf n hs with
  | [] => []
  | v :: vs => (some n, v) :: vs.map (fun w => ((none : Option String), w))

/-- Iteration order of `http::HeaderMap::into_iter`, which the header
loop of `response_to_bytes` consumes (src/src/http_server.rs:256):
buckets appear in first-insertion order of their names; within a
bucket, the first value is yielded together with `some name` and every
further value of the same name is yielded with `none`. -/
def headerEntries (hs : List (String × String)) : List (Option String × String) :=
  listConcatMap (fun n => bucketFor hs n) (firstKeys hs)

/-- Bytes of one serialized header line `<name>: <value>\r\n`
(src/src/http_server.rs:257-266); the `getD` default is never exercised
because serialization aborts on a nameless entry. -/
def headerEntryBytes (e : Option String × String) : List Nat :=
  strBytes (e.1.getD ("") ++ ": ") ++ strBytes e.2 ++ crlf

/-- Bytes of the header line for one insertion-sequence entry. -/
def headerLineBytes (p : String × String) : List Nat :=
  strBytes (p.1 ++ ": ") ++ strBytes p.2 ++ crlf

/-- Serialized header section: one line per entry, in insertion order. -/
def headerSectionBytes (hs : List (String × String)) : List Nat :=
  listConcatMap headerLineBytes hs

/-- Status-line bytes
`<version-display> <status-code> <canonical-reason>\r\n` produced at
src/src/http_server.rs:241-253. -/
def statusLineBytes (v : Version) (code : Nat) (reason : String) : List Nat :=
  strBytes (v.display ++ " " ++ toString code ++ " " ++ reason ++ "\r\n")

/-- Model of `response_to_bytes` (src/src/http_server.rs:236-274).
`none` models a panic: either the status code has no canonical reason
(the `expect` at line 249) or a header entry is yielded without a name,
i.e. some header name occurs with more than one value (the `expect` at
line 260).  Otherwise the result is the status line, the header lines,
one blank `\r\n` line, and the body bytes appended verbatim. -/
def responseToBytes (r : ResponseModel) : Option (List Nat) :=
  match canonicalReason r.status with
  | none => none
  | some reason =>
    let entries := headerEntries r.headers
    if entries.all (fun e => e.1.isSome) then
      some (statusLineBytes r.version r.status reason
        ++ listConcatMap headerEntryBytes entries ++ crlf ++ r.body)
    else none

example : canonicalReason 200 = some ("OK") := by decide

example :
    responseToBytes ⟨Version.http11, 200, [("Content-Type", "text/plain")], strBytes ("hi")⟩
      = some (strBytes ("HTTP/1.1 200 OK\r\nContent-Type: text/plain\r\n\r\nhi")) := by
  decide

example :
    responseToBytes ⟨Version.http11, 200, [("a", "1"), ("a", "2")], []⟩ = none := by
  decide

example : responseToBytes ⟨Version.http11, 299, [], []⟩ = none := by decide

/-- Token characters (`tchar`) accepted in a method by
`http::Method::from_bytes` (the `METHOD_CHARS` table of the `http`
crate): `! # $ % & ' * + - . ^ _ ` | ~`, digits and letters. -/
def isTchar (c : Char) : Bool :=
  c.isAlphanum ||
    [0x21, 0x23, 0x24, 0x25, 0x26, 0x27, 0x2A, 0x2B, 0x2D, 0x2E,
     0x5E, 0x5F, 0x60, 0x7C, 0x7E].contains c.toNat

/-- Success predicate of `http::Method::from_bytes`, called by the
handler on the first token of the request line
(src/src/http_server.rs:291): any non-empty all-`tchar` token is a
valid method (well-known names and extension methods alike), and the
method keeps its literal bytes. -/
def methodOk (m : List Char) : Bool :=
  !m.isEmpty && m.all isTchar

/-- Tokenization performed by `http_request[0].split(' ')` at
src/src/http_server.rs:287: split on every single space, keeping empty
pieces; the result is never empty. -/
def splitSp : List Char → List (List Char)
  | [] => [[]]
  | c :: rest =>
    if c = ' ' then [] :: splitSp rest
    else
      match splitSp rest with
      | [] => [[c]]
      | t :: ts => (c :: t) :: ts

/-- Bytes that need no escaping in the path component, per the path
loop of `http::uri::PathAndQuery::from_shared` of the `http` crate. -/
def isPathByte (c : Char) : Bool :=
  let n := c.toNat
  n == 0x21 || (0x24 ≤ n && n ≤ 0x3B) || n == 0x3D ||
    (0x40 ≤ n && n ≤ 0x5F) || (0x61 ≤ n && n ≤ 0x7A) || n == 0x7C || n == 0x7E

/-- Bytes accepted in the query component, per the query loop of
`http::uri::PathAndQuery::from_shared`. -/
def isQueryByte (c : Char) : Bool :=
  let n := c.toNat
  n == 0x21 || (0x24 ≤ n && n ≤ 0x3B) || n == 0x3D || (0x3F ≤ n && n ≤ 0x7E)

/-- Query scan of `http::uri::PathAndQuery::from_shared`: keeps the
query bytes, truncates at a `#` fragment, rejects invalid bytes. -/
def pqQuery : List Char → Option (List Char)
  | [] => some []
  | c :: rest =>
    if c = '#' then some []
    else if isQueryByte c then (pqQuery rest).map (fun q => c :: q)
    else none

/-- Path-and-query scan of `http::uri::PathAndQuery::from_shared`:
keeps path bytes until an optional `?` query, truncates at a `#`
fragment, rejects invalid bytes; the returned list is the data stored
in the URI. -/
def pqPath : List Char → Option (List Char)
  | [] => some []
  | c :: rest =>
    if c = '?' then (pqQuery rest).map (fun q => c :: q)
    else if c = '#' then some []
    else if isPathByte c then (pqPath rest).map (fun q => c :: q)
    else none

/-- Characters of the `URI_CHARS` table of the `http` crate, used while
scanning an authority. -/
def isUriChar (c : Char) : Bool :=
  let n := c.toNat
  n == 0x21 || (0x23 ≤ n && n ≤ 0x3B) || n == 0x3D || n == 0x3F ||
    (0x40 ≤ n && n ≤ 0x5B) || n == 0x5D || n == 0x5F ||
    (0x61 ≤ n && n ≤ 0x7A) || n == 0x7E

/-- Authority scan, modelled from `http::uri::Authority::parse`: walks
the input until `/`, `?` or `#`, tracking colon count and IPv6
brackets; returns the number of consumed characters, or `none` on an
invalid authority. -/
def authScan : List Char → Nat → Nat → Bool → Bool → Option Nat
  | [], i, colons, sb, eb => if sb == eb && colons ≤ 1 then some i else none
  | c :: rest, i, colons, sb, eb =>
    if c = '/' || c = '?' || c = '#' then
      if sb == eb && colons ≤ 1 then some i else none
    else if !isUriChar c then none
    else if c = ':' then authScan rest (i + 1) (colons + 1) sb eb
    else if c = '[' then (if sb then none else authScan rest (i + 1) colons true eb)
    else if c = ']' then (if eb || !sb then none else authScan rest (i + 1) 0 sb true)
    else if c = '@' then authScan rest (i + 1) 0 false false
    else authScan rest (i + 1) colons sb eb

/-- Authority parse covering the whole input, modelled from
`http::uri::Authority::from_shared` (the scan must consume every
character). -/
def authorityParse (s : List Char) : Option (List Char) :=
  match authScan s 0 0 false false with
  | none => none
  | some e => if e = s.length then some s else none

/-- Scheme characters of the `SCHEME_CHARS` table of the `http`
crate. -/
def isSchemeChar (c : Char) : Bool :=
  c.isAlphanum || c == '+' || c == '-' || c == '.'

/-- Scheme scan modelled from `http::uri::Scheme2::parse`: looks for a
run of scheme characters terminated by `://`; yields the scheme length
when found. -/
def schemeScan : List Char → Nat → Option Nat
  | [], _ => none
  | c :: rest, i =>
    if c = ':' then
      match rest with
      | '/' :: '/' :: _ => some i
      | _ => none
    else if isSchemeChar c then schemeScan rest (i + 1)
    else none

/-- Parsed URI shape, as much of `http::Uri` as the handler's dispatch
observes: optional scheme, optional authority, and the stored
path-and-query data. -/
structure UriModel where
  scheme : Option (List Char)
  authority : Option (List Char)
  pathAndQuery : Option (List Char)
  deriving DecidableEq

/-- Full parse (scheme present or absent), modelled from the
`parse_full` branch of `http::Uri` parsing. -/
def parseFull (s : List Char) : Option UriModel :=
  match schemeScan s 0 with
  | none =>
    (authorityParse s).map (fun a => UriModel.mk none (some a) none)
  | some n =>
    let rest := s.drop (n + 3)
    match authScan rest 0 0 false false with
    | none => none
    | some e =>
      if e = 0 then none
      else
        let auth := rest.take e
        let tail := rest.drop e
        if tail.isEmpty then some (UriModel.mk (some (s.take n)) (some auth) none)
        else (pqPath tail).map (fun pq => UriModel.mk (some (s.take n)) (some auth) (some pq))

/-- Model of `http::Uri::from_str`, which the handler applies to the
second token of the request line (src/src/http_server.rs:300): empty
input fails; `/` and `*` are the origin and asterisk forms; other
single characters are authority-form; input starting with `/` is
origin-form path-and-query; anything else goes through the full
parse. -/
def uriParse (s : List Char) : Option UriModel :=
  match s with
  | [] => none
  | [c] =>
    if c = '/' then some (UriModel.mk none none (some ['/']))
    else if c = '*' then some (UriModel.mk none none (some ['*']))
    else (authorityParse [c]).map (fun a => UriModel.mk none (some a) none)
  | c :: _ =>
    if c = '/' then (pqPath s).map (fun pq => UriModel.mk none none (some pq))
    else parseFull s

example : uriParse ("/foo".data) = some (UriModel.mk none none (some ("/foo".data))) := by decide
example : uriParse ("/a?b=c".data) = some (UriModel.mk none none (some ("/a?b=c".data))) := by decide
example : uriParse ("/<".data) = none := by decide
example : uriParse [] = none := by decide
example : (uriParse ("example.com:80".data)).isSome = true := by decide
example : (uriParse ("http://x/y".data)).isSome = true := by decide
example : methodOk ("FROB".data) = true := by decide
example : methodOk [] = false := by decide
example : splitSp ("GET /foo HTTP/1.1".data) = ["GET".data, "/foo".data, "HTTP/1.1".data] := by decide

/-- Structured request handed to the dispatcher (the
`http::Request<Body>` built at src/src/http_server.rs:310-314): the
literal method token, the parsed URI, and a body that the handler
always leaves empty (`Body::empty()`; bodies are never read off the
wire). -/
structure StructuredRequest where
  method : List Char
  uri : UriModel
  body : List Nat
  deriving DecidableEq

/-- The dispatcher (the cloned `axum::Router` of the source), observed
through `request_to_response` (src/src/http_server.rs:215-234): calling
it and polling `data()` on the returned body yields `some bytes` when a
first data frame arrives and `none` otherwise. -/
def RouterModel : Type := StructuredRequest → Option (List Nat)

/-- Model of `request_to_response` (src/src/http_server.rs:215-234):
the response is rebuilt from scratch with `Response::builder()`
defaults — status 200, version HTTP/1.1, no headers — and the body is
the router's first data frame, or empty when there is none. -/
def requestToResponse (router : RouterModel) (req : StructuredRequest) : ResponseModel :=
  ResponseModel.mk Version.http11 200 [] ((router req).getD [])

/-- Result of one `BufRead::lines` read as the handler consumes it at
src/src/http_server.rs:276-281: a line string, or a failure (an I/O
error on the stream or bytes that are not valid UTF-8). -/
inductive LineRead
  | ok (line : List Char)
  | fail
  deriving DecidableEq

/-- Error kinds of `std::io::ErrorKind` that the handler can return;
every failing return of `handler` is `ErrorKind::InvalidData.into()`
(src/src/http_server.rs:284,294,297,303,306,317,324). -/
inductive IoErrKind
  | invalidData
  | otherKind
  deriving DecidableEq

/-- Observable outcome of one handler task: a normal return, an error
return (the connection is dropped silently), or a panic of the task via
one of the `expect` calls. -/
inductive HandlerOutcome
  | ok
  | ioErr (k : IoErrKind)
  | panicked
  deriving DecidableEq

/-- Observable trace of one handler run: the request forwarded to the
dispatcher (if any), the response bytes written to the client (`[]`
when nothing is written), and the outcome. -/
structure HandlerTrace where
  dispatched : Option StructuredRequest
  written : List Nat
  outcome : HandlerOutcome
  deriving DecidableEq

/-- Trace of every failing `return Err(ErrorKind::InvalidData.into())`
path of the handler: nothing dispatched, nothing written. -/
def errTrace : HandlerTrace :=
  HandlerTrace.mk none [] (HandlerOutcome.ioErr IoErrKind.invalidData)

/-- Trace of a handler panic before anything is dispatched or
written. -/
def panTrace : HandlerTrace := HandlerTrace.mk none [] HandlerOutcome.panicked

/-- Model of the head collection at src/src/http_server.rs:276-281:
`lines().map(expect).take_while(non-empty).collect()`.  Lines are
pulled until the first empty line or end of stream; a failing read
among the pulled lines makes the `expect` panic (`none`). -/
def collectHead : List LineRead → Option (List (List Char))
  | [] => some []
  | LineRead.fail :: _ => none
  | LineRead.ok [] :: _ => some []
  | LineRead.ok l :: rest => (collectHead rest).map (fun ls => l :: ls)

/-- Model of the request-line parsing at src/src/http_server.rs:287-307:
split the first collected line on spaces, require a well-formed method
token, require a second token, parse it as a URI; every failure is the
same `ErrorKind::InvalidData` error (`none` here). -/
def parseHeadLine (line : List Char) : Option (List Char × UriModel) :=
  match splitSp line with
  | [] => none
  | m :: rest =>
    if methodOk m then
      match rest with
      | [] => none
      | t :: _ => (uriParse t).map (fun u => (m, u))
    else none

/-- Dispatch-and-respond tail of the handler
(src/src/http_server.rs:309-329): build the request (infallible here,
as in the source where the builder is given an already-validated method
and URI), call the router, serialize, and write.  A `none` from the
serializer models its panic; the `write_all` result is discarded by the
source. -/
def handlerRespond (router : RouterModel) (req : StructuredRequest) : HandlerTrace :=
  match responseToBytes (requestToResponse router req) with
  | none => HandlerTrace.mk (some req) [] HandlerOutcome.panicked
  | some bs => HandlerTrace.mk (some req) bs HandlerOutcome.ok

/-- Handler behaviour on the collected head lines: an empty head is the
`InvalidData` early return at src/src/http_server.rs:283-285; otherwise
the first line is parsed and, on success, dispatched. -/
def handlerLines (router : RouterModel) : List (List Char) → HandlerTrace
  | [] => errTrace
  | l :: _ =>
    match parseHeadLine l with
    | none => errTrace
    | some (m, u) => handlerRespond router (StructuredRequest.mk m u [])

/-- Model of `handler` (src/src/http_server.rs:213-330) as a function
from the stream's line reads to the observable trace. -/
def handler (router : RouterModel) (stream : List LineRead) : HandlerTrace :=
  match collectHead stream with
  | none => panTrace
  | some lines => handlerLines router lines

/-- Result of one `TcpListener::accept` call in the accept loop. -/
inductive AcceptResult
  | ok (clientId : Nat)
  | acceptErr
  deriving DecidableEq, BEq

/-- Observable events of one accept-loop iteration. -/
inductive LoopEvent
  | spawnHandler (clientId : Nat)
  | logAcceptFailed
  | sleepPoll
  deriving DecidableEq, BEq

/-- Model of one iteration of the accept loop spawned by `serve`
(src/src/http_server.rs:186-206): on a successful accept the client
handler is spawned and the loop then sleeps for the refresh rate; on an
accept error the loop logs and `continue`s — which jumps straight to
the next `accept` call, skipping the sleep at line 204. -/
def acceptIter : AcceptResult → List LoopEvent
  | AcceptResult.ok c => [LoopEvent.spawnHandler c, LoopEvent.sleepPoll]
  | AcceptResult.acceptErr => [LoopEvent.logAcceptFailed]

/-- Event trace of a finite run of the accept loop over the given
sequence of accept results. -/
def acceptTrace : List AcceptResult → List LoopEvent
  | [] => []
  | r :: rs => acceptIter r ++ acceptTrace rs

/-- Observable events of one `shutdown` call. -/
inductive ShutEvent
  | abortTask (taskId : Nat)
  | logStopped
  deriving DecidableEq, BEq

/-- Model of `HttpServer::shutdown` (src/src/http_server.rs:153-159):
the state is the stored `main_task` handle; when present it is taken,
aborted and a stop message is logged; otherwise nothing happens. -/
def shutdownStep (mainTask : Option Nat) : Option Nat × List ShutEvent :=
  match mainTask with
  | some t => (none, [ShutEvent.abortTask t, ShutEvent.logStopped])
  | none => (none, [])

example :
    (handler (fun _ => none) [LineRead.ok ("GET /foo HTTP/1.1".data)]).dispatched
      = some (StructuredRequest.mk ("GET".data) (UriModel.mk none none (some ("/foo".data))) []) := by
  decide
example : handler (fun _ => none) [] = errTrace := by decide
example : handler (fun _ => none) [LineRead.fail] = panTrace := by decide
example : handler (fun _ => none) [LineRead.ok ("GET".data)] = errTrace := by decide
example :
    handler (fun _ => some (strBytes ("abc"))) [LineRead.ok ("GET / HTTP/1.1".data)]
      = HandlerTrace.mk
          (some (StructuredRequest.mk ("GET".data) (UriModel.mk none none (some ['/'])) []))
          (strBytes ("HTTP/1.1 200 OK\r\n\r\nabc"))
          HandlerOutcome.ok := by
  decide

theorem splitSp_ne_nil (l : List Char) : splitSp l ≠ [] := by
  cases l with
  | nil => simp [splitSp]
  | cons c rest =>
    simp only [splitSp]
    by_cases h : c = ' '
    · simp [h]
    · simp only [if_neg h]
      cases hsp : splitSp rest <;> simp

theorem splitSp_sep (xs ys : List Char) (h : ' ' ∉ xs) :
    splitSp (xs ++ ' ' :: ys) = xs :: splitSp ys := by
  induction xs with
  | nil => simp [splitSp]
  | cons c xs ih =>
    have hc : ¬ (c = ' ') := by
      intro he
      exact h (he ▸ List.mem_cons_self c xs)
    have h' : ' ' ∉ xs := fun hm => h (List.mem_cons_of_mem c hm)
    simp only [List.cons_append, splitSp, if_neg hc, List.append_eq]
    rw [ih h']

theorem methodOk_no_space {m : List Char} (h : methodOk m = true) : ' ' ∉ m := by
  intro hm
  simp only [methodOk, Bool.and_eq_true] at h
  have h3 := List.all_eq_true.mp h.2 ' ' hm
  exact absurd h3 (by decide)

theorem pqQuery_self_no_space : ∀ {t : List Char}, pqQuery t = some t → ' ' ∉ t := by
  intro t
  induction t with
  | nil => intro _ hm; simp at hm
  | cons c rest ih =>
    intro h hm
    simp only [pqQuery] at h
    by_cases h1 : c = '#'
    · simp [h1] at h
    · rw [if_neg h1] at h
      by_cases h2 : isQueryByte c = true
      · rw [if_pos h2] at h
        cases hq : pqQuery rest with
        | none => simp [hq] at h
        | some q =>
          rw [hq] at h
          simp only [Option.map_some'] at h
          have hqr : q = rest := (List.cons.inj (Option.some.inj h)).2
          rcases List.mem_cons.mp hm with hc | hm'
          · rw [← hc] at h2
            exact absurd h2 (by decide)
          · exact ih (hqr ▸ hq) hm'
      · simp [h2] at h

theorem pqPath_self_no_space : ∀ {t : List Char}, pqPath t = some t → ' ' ∉ t := by
  intro t
  induction t with
  | nil => intro _ hm; simp at hm
  | cons c rest ih =>
    intro h hm
    simp only [pqPath] at h
    by_cases h1 : c = '?'
    · rw [if_pos h1] at h
      cases hq : pqQuery rest with
      | none => simp [hq] at h
      | some q =>
        rw [hq] at h
        simp only [Option.map_some'] at h
        have hqr : q = rest := (List.cons.inj (Option.some.inj h)).2
        rcases List.mem_cons.mp hm with hc | hm'
        · rw [← hc] at h1
          exact absurd h1 (by decide)
        · exact pqQuery_self_no_space (hqr ▸ hq) hm'
    · rw [if_neg h1] at h
      by_cases h2 : c = '#'
      · simp [h2] at h
      · rw [if_neg h2] at h
        by_cases h3 : isPathByte c = true
        · rw [if_pos h3] at h
          cases hq : pqPath rest with
          | none => simp [hq] at h
          | some q =>
            rw [hq] at h
            simp only [Option.map_some'] at h
            have hqr : q = rest := (List.cons.inj (Option.some.inj h)).2
            rcases List.mem_cons.mp hm with hc | hm'
            · rw [← hc] at h3
              exact absurd h3 (by decide)
            · exact ih (hqr ▸ hq) hm'
        · simp [h3] at h

theorem uriParse_origin {t : List Char} (h1 : t.head? = some '/')
    (h2 : pqPath t = some t) :
    uriParse t = some (UriModel.mk none none (some t)) := by
  match t with
  | [] => simp at h1
  | [c] =>
    have hc : c = '/' := by simpa using h1
    subst hc
    simp [uriParse]
  | c :: d :: rest =>
    have hc : c = '/' := by simpa using h1
    subst hc
    simp [uriParse, h2]

theorem mem_listConcatMap {α β : Type} {f : α → List β} {b : β} {l : List α} :
    b ∈ listConcatMap f l ↔ ∃ a ∈ l, b ∈ f a := by
  induction l with
  | nil => simp [listConcatMap]
  | cons a l ih => simp [listConcatMap, ih]

theorem listConcatMap_congr {α β : Type} {f g : α → List β} {l : List α}
    (h : ∀ a ∈ l, f a = g a) : listConcatMap f l = listConcatMap g l := by
  induction l with
  | nil => rfl
  | cons a l ih =>
    simp only [listConcatMap]
    rw [h a (List.mem_cons_self a l), ih (fun b hb => h b (List.mem_cons_of_mem a hb))]

theorem valuesOf_eq_nil {n : String} {hs : List (String × String)}
    (h : n ∉ hs.map Prod.fst) : valuesOf n hs = [] := by
  induction hs with
  | nil => rfl
  | cons p rest ih =>
    simp only [List.map_cons, List.mem_cons, not_or] at h
    have hne : (p.1 == n) = false := by
      simp only [beq_eq_false_iff_ne, ne_eq]
      exact fun he => h.1 he.symm
    simp only [valuesOf, List.filter_cons, hne, Bool.false_eq_true, if_neg, ite_false]
    exact ih h.2

theorem valuesOf_ne_nil {n : String} {hs : List (String × String)}
    (h : n ∈ hs.map Prod.fst) : valuesOf n hs ≠ [] := by
  simp only [List.mem_map] at h
  obtain ⟨q, hq, he⟩ := h
  intro hnil
  simp only [valuesOf, List.map_eq_nil_iff, List.filter_eq_nil_iff] at hnil
  exact hnil q hq (by simp [he])

theorem valuesOf_cons_ne {n : String} {p : String × String} {rest : List (String × String)}
    (h : ¬ (p.1 = n)) : valuesOf n (p :: rest) = valuesOf n rest := by
  have hne : (p.1 == n) = false := beq_eq_false_iff_ne.mpr h
  simp [valuesOf, List.filter_cons, hne]

theorem valuesOf_cons_self (p : String × String) (rest : List (String × String)) :
    valuesOf p.1 (p :: rest) = p.2 :: valuesOf p.1 rest := by
  simp [valuesOf, List.filter_cons]

theorem firstKeys_mem {n : String} {hs : List (String × String)}
    (h : n ∈ firstKeys hs) : n ∈ hs.map Prod.fst := by
  induction hs with
  | nil => simp [firstKeys] at h
  | cons p rest ih =>
    simp only [firstKeys, List.mem_cons] at h
    rcases h with h | h
    · simp [h]
    · have := List.mem_filter.mp h
      simp only [List.map_cons, List.mem_cons]
      exact Or.inr (ih this.1)

theorem headerEntries_nodup {hs : List (String × String)}
    (h : (hs.map Prod.fst).Nodup) :
    headerEntries hs = hs.map (fun p => (some p.1, p.2)) := by
  induction hs with
  | nil => rfl
  | cons p rest ih =>
    simp only [List.map_cons, List.nodup_cons] at h
    obtain ⟨hnot, hrest⟩ := h
    have hfilter : (firstKeys rest).filter (fun n => n != p.1) = firstKeys rest := by
      apply List.filter_eq_self.mpr
      intro n hn
      have hmem : n ∈ rest.map Prod.fst := firstKeys_mem hn
      have hne : ¬ (n = p.1) := fun he => hnot (he ▸ hmem)
      simpa [bne_iff_ne] using hne
    have hvals : valuesOf p.1 rest = [] := valuesOf_eq_nil hnot
    have hvp : valuesOf p.1 (p :: rest) = [p.2] := by
      rw [valuesOf_cons_self, hvals]
    have hcongr : ∀ n ∈ firstKeys rest, bucketFor (p :: rest) n = bucketFor rest n := by
      intro n hn
      have hmem : n ∈ rest.map Prod.fst := firstKeys_mem hn
      have hne : ¬ (p.1 = n) := fun he => hnot (he ▸ hmem)
      simp [bucketFor, valuesOf_cons_ne hne]
    simp only [headerEntries, firstKeys, hfilter, listConcatMap]
    rw [listConcatMap_congr hcongr]
    simp only [bucketFor, hvp, List.map_nil, List.map_cons]
    rw [show listConcatMap (fun n => bucketFor rest n) (firstKeys rest) = headerEntries rest from rfl]
    rw [ih hrest]
    rfl

theorem headerEntries_none_of_dup {hs : List (String × String)}
    (h : ¬ (hs.map Prod.fst).Nodup) :
    ∃ w, ((none : Option String), w) ∈ headerEntries hs := by
  induction hs with
  | nil => simp at h
  | cons p rest ih =>
    by_cases hp : p.1 ∈ rest.map Prod.fst
    · have hvne : valuesOf p.1 rest ≠ [] := valuesOf_ne_nil hp
      obtain ⟨v, vs, hv⟩ := List.exists_cons_of_ne_nil hvne
      refine ⟨v, ?_⟩
      apply mem_listConcatMap.mpr
      refine ⟨p.1, ?_, ?_⟩
      · simp [firstKeys]
      · rw [bucketFor, valuesOf_cons_self, hv]
        simp
    · have h' : ¬ (rest.map Prod.fst).Nodup := by
        intro hn
        exact h (by simp only [List.map_cons, List.nodup_cons]; exact ⟨hp, hn⟩)
      obtain ⟨w, hw⟩ := ih h'
      refine ⟨w, ?_⟩
      have hfilter : (firstKeys rest).filter (fun n => n != p.1) = firstKeys rest := by
        apply List.filter_eq_self.mpr
        intro n hn
        have hmem : n ∈ rest.map Prod.fst := firstKeys_mem hn
        have hne : ¬ (n = p.1) := fun he => hp (he ▸ hmem)
        simpa [bne_iff_ne] using hne
      have hcongr : ∀ n ∈ firstKeys rest, bucketFor (p :: rest) n = bucketFor rest n := by
        intro n hn
        have hmem : n ∈ rest.map Prod.fst := firstKeys_mem hn
        have hne : ¬ (p.1 = n) := fun he => hp (he ▸ hmem)
        simp [bucketFor, valuesOf_cons_ne hne]
      simp only [headerEntries, firstKeys, hfilter, listConcatMap]
      rw [listConcatMap_congr hcongr]
      apply List.mem_append_right
      exact hw

theorem concatMap_entry_line (hs : List (String × String)) :
    listConcatMap headerEntryBytes (hs.map (fun p => (some p.1, p.2)))
      = headerSectionBytes hs := by
  induction hs with
  | nil => rfl
  | cons p rest ih =>
    simp only [List.map_cons, listConcatMap, headerSectionBytes] at *
    rw [ih]
    rfl

theorem responseToBytes_layout (r : ResponseModel) (reason : String)
    (hr : canonicalReason r.status = some reason)
    (hn : (r.headers.map Prod.fst).Nodup) :
    responseToBytes r
      = some (statusLineBytes r.version r.status reason
          ++ headerSectionBytes r.headers ++ crlf ++ r.body) := by
  have hall : ((r.headers.map (fun p => ((some p.1 : Option String), p.2))).all
      (fun e => e.1.isSome)) = true := by
    rw [List.all_eq_true]
    intro e he
    obtain ⟨p, _, rfl⟩ := List.mem_map.mp he
    rfl
  simp only [responseToBytes, hr, headerEntries_nodup hn]
  rw [if_pos hall, concatMap_entry_line]

theorem responseToBytes_none_of_noReason (r : ResponseModel)
    (hr : canonicalReason r.status = none) : responseToBytes r = none := by
  simp only [responseToBytes, hr]

theorem responseToBytes_some_nodup {r : ResponseModel} {bs : List Nat}
    (h : responseToBytes r = some bs) : (r.headers.map Prod.fst).Nodup := by
  by_contra hd
  obtain ⟨w, hw⟩ := headerEntries_none_of_dup hd
  cases hcr : canonicalReason r.status with
  | none => rw [responseToBytes_none_of_noReason r hcr] at h; simp at h
  | some reason =>
    simp only [responseToBytes, hcr] at h
    by_cases hall : ((headerEntries r.headers).all (fun e => e.1.isSome)) = true
    · have := List.all_eq_true.mp hall _ hw
      simp at this
    · rw [if_neg hall] at h
      simp at h

theorem handlerRespond_dispatched (router : RouterModel) (req : StructuredRequest) :
    (handlerRespond router req).dispatched = some req := by
  unfold handlerRespond
  cases responseToBytes (requestToResponse router req) <;> rfl

theorem handler_parse_ok {router : RouterModel} {stream : List LineRead}
    {l : List Char} {tl : List (List Char)} {m : List Char} {u : UriModel}
    (hc : collectHead stream = some (l :: tl))
    (hp : parseHeadLine l = some (m, u)) :
    handler router stream = handlerRespond router (StructuredRequest.mk m u []) := by
  simp only [handler, hc, handlerLines, hp]

theorem handler_parse_fail {router : RouterModel} {stream : List LineRead}
    {l : List Char} {tl : List (List Char)}
    (hc : collectHead stream = some (l :: tl))
    (hp : parseHeadLine l = none) :
    handler router stream = errTrace := by
  simp only [handler, hc, handlerLines, hp]

theorem handler_empty_head {router : RouterModel} {stream : List LineRead}
    (hc : collectHead stream = some []) : handler router stream = errTrace := by
  simp only [handler, hc, handlerLines]

theorem parseHeadLine_valid {m t v : List Char} {u : UriModel}
    (hm : methodOk m = true) (ht : uriParse t = some u) (hts : ' ' ∉ t) :
    parseHeadLine (m ++ ' ' :: (t ++ ' ' :: v)) = some (m, u) := by
  have hms : ' ' ∉ m := methodOk_no_space hm
  unfold parseHeadLine
  rw [splitSp_sep m (t ++ ' ' :: v) hms, splitSp_sep t v hts]
  simp [hm, ht]

/-- Origin-form request target as the spec of the handler describes it
(path plus optional query, no fragment): it starts with `/` and the
path-and-query scan keeps it whole. -/
def targetOk (t : List Char) : Bool :=
  t.head? == some '/' && pqPath t == some t

/-- Router used for concrete handler runs: it produces no data frame,
so the served body defaults to empty. -/
def nullRouter : RouterModel := fun _ => none

/-- Concrete response of the round-trip property of the spec:
status 200, a single Content-Type header, body `hi`. -/
def exampleResponse : ResponseModel :=
  ResponseModel.mk Version.http11 200 [("Content-Type", "text/plain")] (strBytes ("hi"))

/-- Well-known request methods of HTTP (the named constants of
`http::Method`); `Method::from_bytes` accepts strictly more than
these. -/
def standardMethods : List String :=
  ["GET", "HEAD", "POST", "PUT", "DELETE", "CONNECT", "OPTIONS", "TRACE", "PATCH"]

/-- C1 (amended): provided the status code has a canonical reason and
the header names are pairwise distinct (otherwise serialization
aborts, see C8/C9), `response_to_bytes` produces exactly the status
line `<version-display> <status-code> <canonical-reason>\r\n`, one
header line per entry, a single blank `\r\n` line (emitted even with
zero headers, as the `headers = []` instance of the equation shows),
and the body bytes appended verbatim with no length framing and no
auto-injected Content-Length; the concrete 200/Content-Type/`hi`
response serializes to bytes starting with `HTTP/1.1 200 OK\r\n`,
ending in `\r\n\r\nhi`, with the single header line appearing exactly
once. -/
theorem c1_serialization_layout :
    (∀ (r : ResponseModel) (reason : String), canonicalReason r.status = some reason →
      (r.headers.map Prod.fst).Nodup →
      responseToBytes r
        = some (statusLineBytes r.version r.status reason
            ++ headerSectionBytes r.headers ++ crlf ++ r.body)) ∧
    (∃ bs, responseToBytes exampleResponse = some bs ∧
      (strBytes ("\r\n\r\nhi")).isSuffixOf bs = true ∧
      (strBytes ("HTTP/1.1 200 OK\r\n")).isPrefixOf bs = true ∧
      countInfix (strBytes ("Content-Type: text/plain\r\n")) bs = 1) := by
  refine ⟨responseToBytes_layout, ?_⟩
  refine ⟨strBytes ("HTTP/1.1 200 OK\r\nContent-Type: text/plain\r\n\r\nhi"), ?_, ?_, ?_, ?_⟩
    <;> decide

/-- Witness for C1: the general layout equation applied to the
concrete example response of the spec. -/
theorem c1_serialization_layout_witness :
    responseToBytes exampleResponse
      = some (statusLineBytes exampleResponse.version exampleResponse.status ("OK")
          ++ headerSectionBytes exampleResponse.headers ++ crlf ++ exampleResponse.body) :=
  c1_serialization_layout.1 exampleResponse ("OK") (by decide) (by decide)

/-- Counterexample for C1 as stated: it quantifies over every
StructuredResponse, but a response holding two header entries with the
same name (legal in the data model, where order and multiplicity
matter) is not serialized at all — `response_to_bytes` panics on the
nameless second entry of the bucket, so no byte layout is produced. -/
theorem c1_duplicate_header_no_output :
    responseToBytes
      (ResponseModel.mk Version.http11 200
        [("Set-Cookie", "a=1"), ("Set-Cookie", "b=2")] []) = none := by
  decide

/-- C3 (amended): for every StructuredResponse whose header names are
pairwise distinct (and whose status has a canonical reason so that
serialization completes), the serialized bytes contain one header line
`<name>: <value>\r\n` per entry, in the response's insertion order. -/
theorem c3_headers_in_insertion_order (r : ResponseModel) (reason : String)
    (hr : canonicalReason r.status = some reason)
    (hn : (r.headers.map Prod.fst).Nodup) :
    ∃ bs, responseToBytes r = some bs ∧
      bs = statusLineBytes r.version r.status reason
        ++ listConcatMap headerLineBytes r.headers ++ crlf ++ r.body :=
  ⟨_, responseToBytes_layout r reason hr hn, rfl⟩

/-- Witness for C3: a two-header response serialized with both lines
in insertion order. -/
theorem c3_headers_in_insertion_order_witness :
    ∃ bs,
      responseToBytes
          (ResponseModel.mk Version.http10 404 [("Alpha", "one"), ("Beta", "two")]
            (strBytes ("x"))) = some bs ∧
      bs = statusLineBytes Version.http10 404 ("Not Found")
        ++ listConcatMap headerLineBytes [("Alpha", "one"), ("Beta", "two")]
        ++ crlf ++ strBytes ("x") :=
  c3_headers_in_insertion_order
    (ResponseModel.mk Version.http10 404 [("Alpha", "one"), ("Beta", "two")] (strBytes ("x")))
    ("Not Found") (by decide) (by decide)

/-- Counterexample for C3 as stated: for a response with a repeated
header name there are no serialized bytes at all (the serializer
panics), so it is not the case that for every StructuredResponse the
header lines appear in the serialized bytes. -/
theorem c3_duplicate_header_no_output :
    responseToBytes (ResponseModel.mk Version.http11 200 [("x", "1"), ("x", "2")] [])
      = none := by
  decide

/-- C9: a response carrying two header entries with the same name makes
serialization panic (the `expect` on the nameless second bucket entry,
src/src/http_server.rs:260), and serialization completes only for
responses whose header names are pairwise distinct. -/
theorem c9_duplicate_header_panics :
    (responseToBytes (ResponseModel.mk Version.http11 200 [("a", "1"), ("a", "2")] [])
        = none) ∧
    (∀ (r : ResponseModel) (bs : List Nat), responseToBytes r = some bs →
      (r.headers.map Prod.fst).Nodup) :=
  ⟨by decide, fun _ _ h => responseToBytes_some_nodup h⟩

/-- Witness for C9: applying the only-if direction to a concretely
serialized single-header response. -/
theorem c9_duplicate_header_panics_witness :
    ((ResponseModel.mk Version.http11 200 [("b", "2")] []).headers.map Prod.fst).Nodup :=
  c9_duplicate_header_panics.2 (ResponseModel.mk Version.http11 200 [("b", "2")] [])
    (strBytes ("HTTP/1.1 200 OK\r\nb: 2\r\n\r\n")) (by decide)

/-- C8 (amended): a status code with no canonical reason is a panic of
`response_to_bytes` (it fails loudly instead of emitting a malformed
status line), and under the precondition that the status code has a
canonical reason the reason-`expect` branch is unreachable —
serialization is then total provided the header names are also
pairwise distinct (the separate header-name panic of C9 remains). -/
theorem c8_no_reason_fails_loudly :
    (∀ r : ResponseModel, canonicalReason r.status = none → responseToBytes r = none) ∧
    (∀ r : ResponseModel, (canonicalReason r.status).isSome = true →
      (r.headers.map Prod.fst).Nodup → (responseToBytes r).isSome = true) := by
  refine ⟨responseToBytes_none_of_noReason, ?_⟩
  intro r h hn
  obtain ⟨reason, hr⟩ := Option.isSome_iff_exists.mp h
  rw [responseToBytes_layout r reason hr hn]
  rfl

/-- Witness for C8: status 299 has no canonical reason and aborts
serialization; status 503 has one and a distinct-name response
serializes. -/
theorem c8_no_reason_fails_loudly_witness :
    responseToBytes (ResponseModel.mk Version.http11 299 [] []) = none ∧
    (responseToBytes
        (ResponseModel.mk Version.http11 503 [("Retry-After", "120")] [])).isSome = true :=
  ⟨c8_no_reason_fails_loudly.1 (ResponseModel.mk Version.http11 299 [] []) (by decide),
   c8_no_reason_fails_loudly.2 (ResponseModel.mk Version.http11 503 [("Retry-After", "120")] [])
     (by decide) (by decide)⟩

/-- Counterexample for C8 as stated: its precondition only asks that
every status code used has a canonical reason, but serialization is
still not total under it — a 200 response (reason `OK` present) with a
repeated header name panics. -/
theorem c8_reason_present_still_panics :
    (canonicalReason
        (ResponseModel.mk Version.http11 200 [("dup", "1"), ("dup", "2")] []).status).isSome
      = true ∧
    responseToBytes (ResponseModel.mk Version.http11 200 [("dup", "1"), ("dup", "2")] [])
      = none := by
  constructor <;> decide

/-- C2 (amended): for every malformed first request line — a single
token (no second token), a first token that is not a well-formed HTTP
token, or a second token that does not parse as a URI — the handler
fails with the same error, `ErrorKind::InvalidData`, in all three
cases (the source does not distinguish them), nothing is written, and
no request is forwarded to the Dispatcher; a well-formed but
unrecognized method token is accepted as an extension method rather
than rejected. -/
theorem c2_malformed_line_same_error (router : RouterModel) (stream : List LineRead)
    (l : List Char) (tl : List (List Char)) (m : List Char) (rest : List (List Char))
    (hc : collectHead stream = some (l :: tl))
    (hs : splitSp l = m :: rest)
    (hbad : methodOk m = false ∨ rest = [] ∨ ∃ t ts, rest = t :: ts ∧ uriParse t = none) :
    handler router stream = errTrace := by
  have hp : parseHeadLine l = none := by
    unfold parseHeadLine
    rw [hs]
    rcases hbad with hb | hb | ⟨t, ts, rfl, ht⟩
    · simp [hb]
    · subst hb
      by_cases hm : methodOk m = true
      · simp [hm]
      · simp [hm]
    · by_cases hm : methodOk m = true
      · simp [hm, ht]
      · simp [hm]
  exact handler_parse_fail hc hp

/-- Witness for C2 (amended): a single-token request line `GET` is
rejected with the `InvalidData` error trace. -/
theorem c2_malformed_line_same_error_witness :
    handler nullRouter [LineRead.ok (("GET").data)] = errTrace :=
  c2_malformed_line_same_error nullRouter [LineRead.ok (("GET").data)]
    (("GET").data) [] (("GET").data) [] (by decide) (by decide) (Or.inr (Or.inl rfl))

/-- Counterexample for C2 as stated: `FROB` is not a recognized HTTP
method, yet the line `FROB / HTTP/1.1` parses and the request IS
forwarded to the Dispatcher (`Method::from_bytes` accepts any
well-formed token as an extension method); moreover the error kinds
are not distinct — a single-token line and an invalid-target line
produce identical outcomes (`ErrorKind::InvalidData` both). -/
theorem c2_unrecognized_method_dispatches :
    standardMethods.contains ("FROB") = false ∧
    (handler nullRouter [LineRead.ok (("FROB / HTTP/1.1").data)]).dispatched
      = some (StructuredRequest.mk (("FROB").data) (UriModel.mk none none (some ['/'])) []) ∧
    handler nullRouter [LineRead.ok (("GET").data)]
      = handler nullRouter [LineRead.ok (("GET /< HTTP/1.1").data)] := by
  refine ⟨by decide, by decide, by decide⟩

/-- C5: for every first request line `METHOD TARGET VERSION` whose
method token is a well-formed HTTP method and whose target token is a
valid origin-form request target (path plus optional query), the
handler invokes the Dispatcher with a StructuredRequest carrying
exactly the literal method token, exactly the literal target (as the
URI's stored path-and-query), and an empty body; the version token `v`
is arbitrary — it is read but never validated. -/
theorem c5_valid_line_dispatches (router : RouterModel) (stream : List LineRead)
    (m t v : List Char) (tl : List (List Char))
    (hc : collectHead stream = some ((m ++ ' ' :: (t ++ ' ' :: v)) :: tl))
    (hm : methodOk m = true) (ht : targetOk t = true) :
    (handler router stream).dispatched
      = some (StructuredRequest.mk m (UriModel.mk none none (some t)) []) := by
  simp only [targetOk, Bool.and_eq_true, beq_iff_eq] at ht
  have hu : uriParse t = some (UriModel.mk none none (some t)) :=
    uriParse_origin ht.1 ht.2
  have hts : ' ' ∉ t := pqPath_self_no_space ht.2
  rw [handler_parse_ok hc (parseHeadLine_valid hm hu hts)]
  exact handlerRespond_dispatched router (StructuredRequest.mk m (UriModel.mk none none (some t)) [])

/-- Witness for C5: `GET /foo HTTP/1.1` dispatches method `GET` and
target `/foo` with an empty body. -/
theorem c5_valid_line_dispatches_witness :
    (handler nullRouter [LineRead.ok (("GET /foo HTTP/1.1").data)]).dispatched
      = some (StructuredRequest.mk (("GET").data)
          (UriModel.mk none none (some (("/foo").data))) []) :=
  c5_valid_line_dispatches nullRouter [LineRead.ok (("GET /foo HTTP/1.1").data)]
    (("GET").data) (("/foo").data) (("HTTP/1.1").data) [] (by decide) (by decide) (by decide)

/-- C6: for every connection whose request head is empty (zero
non-empty lines collected — including a client that sends zero bytes)
or whose first line fails to parse, the handler writes zero response
bytes, never invokes the Dispatcher, and returns the
`ErrorKind::InvalidData` error (the spec's `EmptyRequest` and
`MalformedRequest` both map to it), so the connection is dropped
silently. -/
theorem c6_empty_or_malformed_drops_silently (router : RouterModel) (stream : List LineRead)
    (h : collectHead stream = some [] ∨
      ∃ l tl, collectHead stream = some (l :: tl) ∧ parseHeadLine l = none) :
    handler router stream = errTrace := by
  rcases h with h | ⟨l, tl, hc, hp⟩
  · exact handler_empty_head h
  · exact handler_parse_fail hc hp

/-- Witness for C6: a client that sends zero bytes — the stream ends
immediately, zero lines are collected, and the error trace (no
dispatch, no bytes written) results. -/
theorem c6_empty_or_malformed_drops_silently_witness :
    handler nullRouter [] = errTrace :=
  c6_empty_or_malformed_drops_silently nullRouter [] (Or.inl (by decide))

/-- C10: if reading any line of the request head fails (an I/O error
on the stream or line bytes that are not valid UTF-8), the handler
panics via the `expect` at src/src/http_server.rs:279 instead of
returning a connection error: the outcome is `panicked`, not an
`ioErr`, and nothing is dispatched or written. -/
theorem c10_read_failure_panics (router : RouterModel) (stream : List LineRead)
    (h : collectHead stream = none) : handler router stream = panTrace := by
  simp only [handler, h]

/-- Witness for C10: a stream whose very first line read fails makes
the handler panic. -/
theorem c10_read_failure_panics_witness :
    handler nullRouter [LineRead.fail] = panTrace :=
  c10_read_failure_panics nullRouter [LineRead.fail] (by decide)

/-- C4 (amended): when an accept attempt succeeds, the loop body runs
exactly one poll-interval sleep in that cycle; when the accept attempt
fails with a transient error, the `continue` at
src/src/http_server.rs:200 jumps straight to the next accept attempt,
skipping the sleep — zero sleeps occur in that cycle. -/
theorem c4_sleep_only_after_accept :
    (∀ c : Nat,
      acceptIter (AcceptResult.ok c) = [LoopEvent.spawnHandler c, LoopEvent.sleepPoll] ∧
      (acceptIter (AcceptResult.ok c)).count LoopEvent.sleepPoll = 1) ∧
    (acceptIter AcceptResult.acceptErr = [LoopEvent.logAcceptFailed] ∧
      (acceptIter AcceptResult.acceptErr).count LoopEvent.sleepPoll = 0) :=
  ⟨fun _ => ⟨rfl, rfl⟩, rfl, rfl⟩

/-- Counterexample for C4 as stated: an error cycle contains no sleep
at all (not exactly one), and in the trace of an error cycle followed
by a successful cycle the two accept attempts are adjacent with no
sleep between them. -/
theorem c4_error_cycle_skips_sleep :
    ¬ ((acceptIter AcceptResult.acceptErr).count LoopEvent.sleepPoll = 1) ∧
    acceptTrace [AcceptResult.acceptErr, AcceptResult.ok 0]
      = [LoopEvent.logAcceptFailed, LoopEvent.spawnHandler 0, LoopEvent.sleepPoll] := by
  constructor <;> decide

/-- C7: `shutdown` is idempotent — with no stored task handle it is a
no-op, and a second consecutive call finds the handle already cleared,
leaves the state unchanged and produces no events (in particular no
duplicate log side-effects), so two calls have the same observable
effect as one. -/
theorem c7_shutdown_idempotent :
    shutdownStep none = (none, []) ∧
    (∀ s : Option Nat,
      (shutdownStep (shutdownStep s).1).1 = (shutdownStep s).1 ∧
      (shutdownStep (shutdownStep s).1).2 = []) := by
  refine ⟨rfl, ?_⟩
  intro s
  cases s <;> exact ⟨rfl, rfl⟩
